import Mathlib

/-!
# Verification of `dicom_numpy` fork: `combine_slices.py`

A shallow embedding of `src/dicom_numpy/combine_slices.py` (the slice-stitching
and geometric-validation pipeline) into Lean 4, together with theorems settling
the frozen claims about the natural-language specification.

Modelling conventions:

* Python floats are modelled as exact rationals `ℚ`.  All arithmetic the code
  performs (`np.dot`, `np.cross`, `np.diff`, `np.mean`, tolerance comparisons)
  is exact in this model; single-precision rounding is out of scope here.
* Fallible Python code (uncaught `IndexError`, `TypeError`, `ValueError`, and
  the library's own `DicomImportException` variants) is modelled with
  `Except Err`.
* `logger.warn` calls are modelled as lists of `Warning` values returned on the
  success path.  A warning emitted on an execution that subsequently raises is
  subsumed by the raised error.
* A pydicom dataset is modelled as a record `Dataset`.  Attributes that the
  attribute validator reads through `getattr(..., None)` are stored as Python
  values (`PyVal`), since the validator's comparison routine dispatches on the
  runtime kind of the value.  Attributes used for geometry are stored as
  rational lists, since the code immediately converts them to numeric arrays.
-/

set_option maxRecDepth 8000

deriving instance DecidableEq for Except

/-- A scalar Python value as seen by the attribute-comparison routine:
`None`, an `int`, a `float`, or a `str`. -/
inductive PyScalar where
  | none
  | int (n : ℤ)
  | float (q : ℚ)
  | str (s : String)
deriving DecidableEq

/-- A Python attribute value: a scalar or a (flat) sequence of scalars.
DICOM multi-valued attributes (orientation, pixel spacing) are flat sequences
of numbers, which is what the code's comparison loop iterates over. -/
inductive PyVal where
  | scalar (v : PyScalar)
  | list (xs : List PyScalar)
deriving DecidableEq

/-- The failure modes of the pipeline.  The first five correspond to
`DicomImportException` raises in the source (with the distinguishing message);
the last three model uncaught Python exceptions. -/
inductive Err where
  | emptyInput
  | geometryMismatch (name : String) (value initial : PyVal)
  | nonOrthogonal
  | invalidDirectionCosine (which : String)
  | missingSlices
  | indexError
  | typeError
  | valueError
deriving DecidableEq

/-- The non-fatal conditions reported through `logger.warn`. -/
inductive Warning where
  | nonUniformSpacing
  | notQuiteOrthogonal
  | rowNormNotQuiteOne
  | colNormNotQuiteOne
deriving DecidableEq

/-- A pydicom dataset as consumed by `combine_slices.py`.

* `Modality` … `HighBit` are read only by the attribute validator (through
  `getattr` with default `None`), so they carry arbitrary Python values; an
  absent attribute is `PyVal.scalar .none`.
* `ImageOrientationPatient` (6 reals), `PixelSpacing` (2 reals) and
  `ImagePositionPatient` (3 reals) are the geometry attributes.
* `RescaleSlope` / `RescaleIntercept`: `Option.none` = attribute absent,
  `some Option.none` = attribute present with the empty-string value,
  `some (some q)` = attribute present with numeric value `q`.
* `pixel_array` is the decoded 2-D pixel buffer (rows of columns) and
  `pixelDtype` a tag for its numpy element type. -/
structure Dataset where
  Modality : PyVal
  SOPClassUID : PyVal
  SeriesInstanceUID : PyVal
  Rows : PyVal
  Columns : PyVal
  PixelRepresentation : PyVal
  BitsAllocated : PyVal
  BitsStored : PyVal
  HighBit : PyVal
  ImageOrientationPatient : List ℚ
  PixelSpacing : List ℚ
  ImagePositionPatient : List ℚ
  RescaleSlope : Option (Option ℚ)
  RescaleIntercept : Option (Option ℚ)
  pixel_array : List (List ℚ)
  pixelDtype : String
deriving DecidableEq

/-! ## Python value helpers -/

/-- Python `==` on scalars: `None == None`, numbers compare by value across
`int`/`float`, strings compare as strings, and values of different kinds are
unequal. -/
def pyEqScalar : PyScalar → PyScalar → Bool
  | .none, .none => true
  | .int a, .int b => a == b
  | .int a, .float b => (a : ℚ) == b
  | .float a, .int b => a == (b : ℚ)
  | .float a, .float b => a == b
  | .str a, .str b => a == b
  | _, _ => false

/-- Python `==` on attribute values (lists compare elementwise). -/
def pyEq : PyVal → PyVal → Bool
  | .scalar a, .scalar b => pyEqScalar a b
  | .list xs, .list ys =>
      xs.length == ys.length && (xs.zip ys).all fun p => pyEqScalar p.1 p.2
  | _, _ => false

/-- Source `is_iterable` from the source: `iter(val)` succeeds for lists and strings
(Python strings are iterable), and the `TypeError` for other values is caught,
yielding `False`. -/
def is_iterable : PyVal → Bool
  | .list _ => true
  | .scalar (.str _) => true
  | _ => false

/-- Python `len` on an attribute value; `TypeError` for non-sequences. -/
def pyLen : PyVal → Except Err Nat
  | .list xs => .ok xs.length
  | .scalar (.str s) => .ok s.length
  | _ => .error .typeError

/-- Iterating a Python value: a list yields its elements, a string yields its
characters as 1-character strings. -/
def pyElems : PyVal → List PyScalar
  | .list xs => xs
  | .scalar (.str s) => s.data.map fun c => .str (String.singleton c)
  | _ => []

/-- Digits of a decimal string as a natural number. -/
def digitsToNat (cs : List Char) : Nat :=
  cs.foldl (fun a c => a * 10 + (c.toNat - 48)) 0

/-- Model of Python `float(str)` on plain decimal literals: optional sign,
digits, at most one decimal point.  Exponent/`inf`/`nan` forms and surrounding
whitespace are outside the modelled input space.  `Option.none` models the
`ValueError` raise. -/
def pyParseFloat (s : String) : Option ℚ :=
  let cs := s.data
  let signAndRest : ℚ × List Char :=
    match cs with
    | '-' :: r => (-1, r)
    | '+' :: r => (1, r)
    | _ => (1, cs)
  let sign := signAndRest.1
  let body := signAndRest.2
  if body.isEmpty then none
  else if body.all Char.isDigit then some (sign * digitsToNat body)
  else
    let intPart := body.takeWhile (· ≠ '.')
    match body.dropWhile (· ≠ '.') with
    | '.' :: frac =>
        if intPart.all Char.isDigit ∧ frac.all Char.isDigit ∧
            (intPart ≠ [] ∨ frac ≠ []) then
          some (sign * ((digitsToNat intPart : ℚ) +
            (digitsToNat frac : ℚ) / (10 ^ frac.length)))
        else none
    | _ => none

/-- Source `is_float` from the source: `float(val)` with only `ValueError` caught.
`float(None)` and `float(list)` raise `TypeError`, which the source does not
catch, so those propagate. -/
def is_float : PyScalar → Except Err Bool
  | .none => .error .typeError
  | .int _ => .ok true
  | .float _ => .ok true
  | .str s => .ok (pyParseFloat s).isSome

/-- Python `float(val)` on a scalar: `TypeError` for `None`, `ValueError` for
an unparseable string. -/
def pyFloat : PyScalar → Except Err ℚ
  | .none => .error .typeError
  | .int n => .ok n
  | .float q => .ok q
  | .str s =>
      match pyParseFloat s with
      | some q => .ok q
      | none => .error .valueError

/-! ## The comparison routine `_lsts_roughly_equal` -/

/-- The element loop of `_lsts_roughly_equal`: for each zipped pair, if the
first list's element converts to `float`, compare with absolute margin
`0.001`; otherwise require Python equality.  Kind errors raised by `float`
propagate. -/
def roughLoop : List PyScalar → List PyScalar → Except Err Bool
  | a :: as, b :: bs => do
      let fa ← is_float a
      if fa then
        let qa ← pyFloat a
        let qb ← pyFloat b
        if qa - 1/1000 ≤ qb ∧ qb ≤ qa + 1/1000 then roughLoop as bs
        else .ok false
      else
        if pyEqScalar a b then roughLoop as bs else .ok false
  | _, _ => .ok true

/-- Source `_lsts_roughly_equal(lst1, lst2)`: a non-iterable first operand is compared
with Python `==`; otherwise the lengths must agree (taking `len` of the second
operand can raise `TypeError`) and the elements are compared by `roughLoop`. -/
def _lsts_roughly_equal (lst1 lst2 : PyVal) : Except Err Bool :=
  if !(is_iterable lst1) then .ok (pyEq lst1 lst2)
  else do
    let n1 ← pyLen lst1
    let n2 ← pyLen lst2
    if n1 ≠ n2 then .ok false
    else roughLoop (pyElems lst1) (pyElems lst2)

/-! ## Attribute access and the attribute validator -/

/-- Source `getattr(dataset, name, None)` for the attribute names the validator
iterates over.  The numeric geometry attributes appear to Python as sequences
of floats. -/
def pyGetattr (d : Dataset) (name : String) : PyVal :=
  if name = "Modality" then d.Modality
  else if name = "SOPClassUID" then d.SOPClassUID
  else if name = "SeriesInstanceUID" then d.SeriesInstanceUID
  else if name = "Rows" then d.Rows
  else if name = "Columns" then d.Columns
  else if name = "ImageOrientationPatient" then
    .list (d.ImageOrientationPatient.map PyScalar.float)
  else if name = "PixelSpacing" then .list (d.PixelSpacing.map PyScalar.float)
  else if name = "PixelRepresentation" then d.PixelRepresentation
  else if name = "BitsAllocated" then d.BitsAllocated
  else if name = "BitsStored" then d.BitsStored
  else if name = "HighBit" then d.HighBit
  else .scalar .none

/-- The loop body of `_slice_attribute_equal`: compare each remaining slice's
value against the first slice's, raising `GeometryMismatch` (with the
attribute name and the two differing values) at the first mismatch. -/
def saeLoop (name : String) (init : PyVal) : List Dataset → Except Err Unit
  | [] => .ok ()
  | d :: rest => do
      let b ← _lsts_roughly_equal (pyGetattr d name) init
      if b then saeLoop name init rest
      else .error (.geometryMismatch name (pyGetattr d name) init)

/-- Source `_slice_attribute_equal`: the `SeriesInstanceUID` attribute is skipped
outright; otherwise the first slice's value (indexing an empty list raises) is
compared against every later slice's. -/
def _slice_attribute_equal (ds : List Dataset) (name : String) : Except Err Unit :=
  if name = "SeriesInstanceUID" then .ok ()
  else
    match ds with
    | [] => .error .indexError
    | d0 :: tl => saeLoop name (pyGetattr d0 name) tl

/-- The fixed list of invariant attributes checked across the series. -/
def invariant_properties : List String :=
  ["Modality", "SOPClassUID", "SeriesInstanceUID", "Rows", "Columns",
   "ImageOrientationPatient", "PixelSpacing", "PixelRepresentation",
   "BitsAllocated", "BitsStored", "HighBit"]

/-- The `for property_name in invariant_properties` loop. -/
def validateProps (ds : List Dataset) : List String → Except Err Unit
  | [] => .ok ()
  | n :: rest => do
      _slice_attribute_equal ds n
      validateProps ds rest

/-! ## Geometry: cosines, orientation validation, positions -/

/-- A 3-vector of rationals. -/
abbrev V3 := ℚ × ℚ × ℚ

/-- First three components of the image orientation (`image_orientation[:3]`). -/
def rowCosine (o : List ℚ) : V3 := (o.getD 0 0, o.getD 1 0, o.getD 2 0)

/-- Last three components of the image orientation (`image_orientation[3:]`). -/
def colCosine (o : List ℚ) : V3 := (o.getD 3 0, o.getD 4 0, o.getD 5 0)

/-- Source `np.cross` on 3-vectors. -/
def cross3 : V3 → V3 → V3
  | (a1, a2, a3), (b1, b2, b3) =>
      (a2 * b3 - a3 * b2, a3 * b1 - a1 * b3, a1 * b2 - a2 * b1)

/-- Source `np.dot` on 3-vectors. -/
def dot3 : V3 → V3 → ℚ
  | (a1, a2, a3), (b1, b2, b3) => a1 * b1 + a2 * b2 + a3 * b3

/-- The slice normal: cross product of row and column cosines
(`slice_cosine` in `_extract_cosines`). -/
def sliceCosine (o : List ℚ) : V3 := cross3 (rowCosine o) (colCosine o)

/-- First three entries of a rational list as a 3-vector. -/
def vec3 (xs : List ℚ) : V3 := (xs.getD 0 0, xs.getD 1 0, xs.getD 2 0)

/-- Source `_almost_zero(value, abs_tol)`.

Modelled from the spec: `utils.isclose` (module `utils.py` is not under
`src/`); per the spec the orthogonality test is `|row·column| ≤ abs_tol`, an
absolute-tolerance closeness to `0.0`. -/
def almostZero (v tol : ℚ) : Bool := |v - 0| ≤ tol

/-- Source `_almost_one(np.linalg.norm v, abs_tol)` expressed on the squared norm
`s = v·v`: for `0 ≤ s` and `0 < tol ≤ 1`,
`|sqrt s - 1| ≤ tol ↔ (1 - tol)^2 ≤ s ∧ s ≤ (1 + tol)^2`
(proved as `normSqWithin_iff_sqrt` below), which keeps the test exact over
`ℚ`.  `utils.isclose` itself is modelled from the spec: the norm test is
`|‖v‖ - 1| ≤ abs_tol`. -/
def normSqWithin (s tol : ℚ) : Bool := (1 - tol) ^ 2 ≤ s ∧ s ≤ (1 + tol) ^ 2

/-- Source `_validate_image_orientation`: orthogonality first (hard threshold `1e-4`,
warning threshold `1e-8`), then the row-cosine norm, then the column-cosine
norm, each with the same two thresholds. -/
def _validate_image_orientation (o : List ℚ) : Except Err (List Warning) :=
  let r := rowCosine o
  let c := colCosine o
  if !(almostZero (dot3 r c) (1/10000)) then .error .nonOrthogonal
  else
    let w1 : List Warning :=
      if !(almostZero (dot3 r c) (1/100000000)) then [.notQuiteOrthogonal] else []
    if !(normSqWithin (dot3 r r) (1/10000)) then
      .error (.invalidDirectionCosine "row")
    else
      let w2 : List Warning :=
        if !(normSqWithin (dot3 r r) (1/100000000)) then [.rowNormNotQuiteOne] else []
      if !(normSqWithin (dot3 c c) (1/10000)) then
        .error (.invalidDirectionCosine "column")
      else
        let w3 : List Warning :=
          if !(normSqWithin (dot3 c c) (1/100000000)) then [.colNormNotQuiteOne]
          else []
        .ok (w1 ++ w2 ++ w3)

/-- Source `_slice_positions`: the slice normal is derived from the *first* slice's
orientation (indexing an empty list raises), and each slice's position is
projected onto it. -/
def _slice_positions (ds : List Dataset) : Except Err (List ℚ) :=
  match ds with
  | [] => .error .indexError
  | d0 :: _ =>
      let n := sliceCosine d0.ImageOrientationPatient
      .ok (ds.map fun d => dot3 n (vec3 d.ImagePositionPatient))

/-! ## Spacing checks and sorting -/

/-- Python `sorted` on a list of floats: ascending order. -/
def sortQ (xs : List ℚ) : List ℚ := xs.insertionSort (· ≤ ·)

/-- Source `np.diff`: consecutive differences. -/
def diffList : List ℚ → List ℚ
  | a :: b :: rest => (b - a) :: diffList (b :: rest)
  | _ => []

/-- Source `np.allclose(xs, b, atol=0, rtol=r)`: every element satisfies
`|x - b| ≤ r * |b|`. -/
def npAllclose (xs : List ℚ) (b r : ℚ) : Bool :=
  xs.all fun a => |a - b| ≤ r * |b|

/-- Source `np.mean` on a rational list. -/
def qMean (xs : List ℚ) : ℚ := xs.sum / xs.length

/-- Source `_check_for_missing_slices`: differences of the sorted positions, indexed
at `0` (raising `IndexError` when there are fewer than two positions), then a
warning at relative tolerance `1e-5` and a `MissingSlices` raise at relative
tolerance `1e-1` — both measured against the *first* difference. -/
def _check_for_missing_slices (slice_positions : List ℚ) : Except Err (List Warning) :=
  let ds := diffList (sortQ slice_positions)
  match ds.head? with
  | none => .error .indexError
  | some d0 =>
      let ws : List Warning :=
        if !(npAllclose ds d0 (1/100000)) then [.nonUniformSpacing] else []
      if !(npAllclose ds d0 (1/10)) then .error .missingSlices
      else .ok ws

/-- Source `_slice_spacing`: mean of the consecutive differences of the sorted
positions for more than one slice, else `0.0`. -/
def _slice_spacing (ds : List Dataset) : Except Err ℚ :=
  if 1 < ds.length then do
    let ps ← _slice_positions ds
    .ok (qMean (diffList (sortQ ps)))
  else .ok 0

/-- Projection key used by the sorter. -/
def keyOf (n : V3) (d : Dataset) : ℚ := dot3 n (vec3 d.ImagePositionPatient)

/-- Source `_sort_by_slice_spacing`, i.e. `sorted(zip(slice_positions, slice_datasets))`.

Python compares the zipped pairs lexicographically; when two keys are equal it
falls back to ordering the dataset objects themselves, and pydicom datasets
define no ordering, so that comparison raises `TypeError`.  Modelled as: with
pairwise-distinct keys the result is the ascending key order (the second
components are then never compared); with a duplicated key the sort fails. -/
def _sort_by_slice_spacing (ds : List Dataset) : Except Err (List Dataset) :=
  match ds with
  | [] => .error .indexError
  | d0 :: _ =>
      let n := sliceCosine d0.ImageOrientationPatient
      if (ds.map (keyOf n)).Nodup then
        .ok (ds.insertionSort fun a b => keyOf n a ≤ keyOf n b)
      else .error .typeError

/-! ## Volume assembly -/

/-- numpy `.T` on a rectangular 2-D buffer with rows of length `c`:
the `c × r` array with `(i, j) ↦ m[j][i]`. -/
def pyT (m : List (List ℚ)) : List (List ℚ) :=
  match m with
  | [] => []
  | r0 :: _ => (List.range r0.length).map fun i => m.map fun row => row.getD i 0

/-- Effective rescale slope: `getattr(d, 'RescaleSlope', 1)`, then `1` if the
value is the empty string, else its float value. -/
def effSlope (d : Dataset) : ℚ :=
  match d.RescaleSlope with
  | some (some q) => q
  | _ => 1

/-- Effective rescale intercept, defaulting to `0`. -/
def effIntercept (d : Dataset) : ℚ :=
  match d.RescaleIntercept with
  | some (some q) => q
  | _ => 0

/-- Source `_requires_rescaling`: the dataset has a `RescaleSlope` or
`RescaleIntercept` attribute whose value is not the empty string. -/
def _requires_rescaling (d : Dataset) : Bool :=
  (match d.RescaleSlope with | some (some _) => true | _ => false) ||
  (match d.RescaleIntercept with | some (some _) => true | _ => false)

/-- One depth slice of the rescaled volume:
`dataset.pixel_array.T.astype(np.float32) * slope + intercept`. -/
def scaleSlice (d : Dataset) : List (List ℚ) :=
  (pyT d.pixel_array).map (List.map fun v => v * effSlope d + effIntercept d)

/-- The assembled voxel volume: the numpy element type and, for each slice
index `k` in sorted order, the 2-D plane `voxels[:, :, k]`. -/
structure Volume where
  dtype : String
  data : List (List (List ℚ))
deriving DecidableEq

/-- Source `_merge_slice_pixel_arrays`: sort, then either rescale every slice into a
`float32` volume, or copy the transposed buffers into a volume of the
(pre-sort) first slice's native dtype. -/
def _merge_slice_pixel_arrays (ds : List Dataset) : Except Err Volume :=
  match ds with
  | [] => .error .indexError
  | first :: _ => do
      let sorted ← _sort_by_slice_spacing ds
      if sorted.any _requires_rescaling then
        .ok ⟨"float32", sorted.map scaleSlice⟩
      else
        .ok ⟨first.pixelDtype, sorted.map fun d => pyT d.pixel_array⟩

/-! ## The affine transform -/

/-- Source `np.identity(4)` as rows. -/
def npIdentity4 : List (List ℚ) :=
  [[1, 0, 0, 0], [0, 1, 0, 0], [0, 0, 1, 0], [0, 0, 0, 1]]

/-- Source `transform[:3, j] = v`: write a 3-vector into column `j` of the first
three rows. -/
def setCol3 (m : List (List ℚ)) (j : Nat) (v : V3) : List (List ℚ) :=
  match m with
  | r0 :: r1 :: r2 :: rest => r0.set j v.1 :: r1.set j v.2.1 :: r2.set j v.2.2 :: rest
  | m => m

/-- The matrix construction of `_ijk_to_patient_xyz_transform_matrix` given
the sorted-first dataset and the slice spacing.  Destructuring
`row_spacing, column_spacing = first_dataset.PixelSpacing` raises `ValueError`
unless the attribute has exactly two values. -/
def transformFrom (d0 : Dataset) (slice_spacing : ℚ) : Except Err (List (List ℚ)) :=
  match d0.PixelSpacing with
  | [row_spacing, column_spacing] =>
      let o := d0.ImageOrientationPatient
      let r := rowCosine o
      let c := colCosine o
      let n := sliceCosine o
      .ok (setCol3 (setCol3 (setCol3 (setCol3 npIdentity4
            0 (r.1 * column_spacing, r.2.1 * column_spacing, r.2.2 * column_spacing))
            1 (c.1 * row_spacing, c.2.1 * row_spacing, c.2.2 * row_spacing))
            2 (n.1 * slice_spacing, n.2.1 * slice_spacing, n.2.2 * slice_spacing))
            3 (vec3 d0.ImagePositionPatient))
  | _ => .error .valueError

/-- Source `_ijk_to_patient_xyz_transform_matrix`: geometry taken from the first
slice in sorted order, spacing from `_slice_spacing`. -/
def _ijk_to_patient_xyz_transform_matrix (ds : List Dataset) : Except Err (List (List ℚ)) := do
  let sorted ← _sort_by_slice_spacing ds
  match sorted with
  | [] => .error .indexError
  | d0 :: _ => do
      let s ← _slice_spacing ds
      transformFrom d0 s

/-! ## Validation and the entry point -/

/-- Source `_validate_slices_form_uniform_grid`: attribute loop, orientation check on
the (pre-sort) first slice, then the spacing check on the projected
positions. -/
def _validate_slices_form_uniform_grid (ds : List Dataset) : Except Err (List Warning) := do
  validateProps ds invariant_properties
  match ds with
  | [] => .error .indexError
  | d0 :: _ => do
      let w1 ← _validate_image_orientation d0.ImageOrientationPatient
      let ps ← _slice_positions ds
      let w2 ← _check_for_missing_slices ps
      .ok (w1 ++ w2)

/-- Source `combine_slices`: reject an empty list, validate, merge the voxels, and
build the transform.  The returned warnings model the `logger.warn` side
channel of a successful run. -/
def combine_slices (ds : List Dataset) :
    Except Err (List Warning × Volume × List (List ℚ)) :=
  if ds.length = 0 then .error .emptyInput
  else do
    let ws ← _validate_slices_form_uniform_grid ds
    let v ← _merge_slice_pixel_arrays ds
    let t ← _ijk_to_patient_xyz_transform_matrix ds
    .ok (ws, v, t)

/-! ## Spec-side reference definitions -/

/-- Modelled from the spec (§4.3), for comparison with the source behaviour:
"the maximum relative deviation of any difference from `mean_spacing`" —
the largest `|d - mean| / |mean|` over the consecutive differences `d` of the
sorted through-plane positions. -/
def specMaxRelDevFromMean (positions : List ℚ) : ℚ :=
  let ds := diffList (sortQ positions)
  let m := qMean ds
  ((ds.map fun d => |d - m|).foldr max 0) / |m|

/-! ## General helper lemmas -/

theorem sortQ_length (xs : List ℚ) : (sortQ xs).length = xs.length :=
  List.length_insertionSort _ _

theorem diffList_length : ∀ xs : List ℚ, (diffList xs).length = xs.length - 1
  | [] => rfl
  | [_] => rfl
  | a :: b :: rest => by
      have ih := diffList_length (b :: rest)
      simp [diffList] at ih ⊢
      omega

theorem sortQ_perm (xs : List ℚ) : (sortQ xs).Perm xs :=
  List.perm_insertionSort _ _

theorem sortQ_sorted (xs : List ℚ) : (sortQ xs).Sorted (· ≤ ·) :=
  List.sorted_insertionSort _ _

/-- Python `sorted` of two lists that are permutations of one another agree. -/
theorem sortQ_eq_of_perm {xs ys : List ℚ} (h : xs.Perm ys) : sortQ xs = sortQ ys :=
  List.eq_of_perm_of_sorted
    (((sortQ_perm xs).trans h).trans (sortQ_perm ys).symm)
    (sortQ_sorted xs) (sortQ_sorted ys)

/-- Simp helper: `Except.ok` bind reduction. -/
@[simp] theorem okBind {α β : Type} (a : α) (f : α → Except Err β) :
    (Except.ok a >>= f) = f a := rfl

/-- Simp helper: `Except.error` bind reduction. -/
@[simp] theorem errorBind {α β : Type} (e : Err) (f : α → Except Err β) :
    ((Except.error e : Except Err α) >>= f) = Except.error e := rfl

/-- Lemma: `roughLoop` on two lists of genuine floats is the elementwise
absolute-tolerance comparison. -/
theorem roughLoop_floats : ∀ (xs ys : List ℚ),
    roughLoop (xs.map PyScalar.float) (ys.map PyScalar.float) =
      .ok ((xs.zip ys).all fun p => |p.2 - p.1| ≤ 1/1000)
  | [], _ => by simp [roughLoop]
  | _ :: _, [] => by simp [roughLoop]
  | x :: xs, y :: ys => by
      have ih := roughLoop_floats xs ys
      have hred : roughLoop ((x :: xs).map PyScalar.float) ((y :: ys).map PyScalar.float) =
          if x - 1/1000 ≤ y ∧ y ≤ x + 1/1000 then
            roughLoop (xs.map PyScalar.float) (ys.map PyScalar.float)
          else .ok false := rfl
      rw [hred]
      by_cases h : x - 1/1000 ≤ y ∧ y ≤ x + 1/1000
      · have habs : |y - x| ≤ 1/1000 := by
          rw [abs_le]
          constructor <;> linarith [h.1, h.2]
        rw [if_pos h, ih]
        simp only [List.zip_cons_cons, List.all_cons, Except.ok.injEq]
        rw [decide_eq_true habs]
        simp
      · have habs : ¬ |y - x| ≤ 1/1000 := by
          rw [abs_le]
          intro hc
          exact h ⟨by linarith [hc.1], by linarith [hc.2]⟩
        rw [if_neg h]
        simp only [List.zip_cons_cons, List.all_cons, Except.ok.injEq]
        rw [decide_eq_false habs]
        simp

/-- A non-iterable first operand is compared with Python equality, with no
tolerance applied. -/
theorem lsts_roughly_equal_scalar (v w : PyVal) (hv : is_iterable v = false) :
    _lsts_roughly_equal v w = .ok (pyEq v w) := by
  simp [_lsts_roughly_equal, hv]

/-- On two lists of floats the comparison is: equal lengths, and every zipped
pair within absolute tolerance `0.001`. -/
theorem lsts_roughly_equal_floats (xs ys : List ℚ) :
    _lsts_roughly_equal (.list (xs.map PyScalar.float)) (.list (ys.map PyScalar.float)) =
      .ok (decide (xs.length = ys.length) &&
        (xs.zip ys).all fun p => |p.2 - p.1| ≤ 1/1000) := by
  by_cases h : xs.length = ys.length
  · simp [_lsts_roughly_equal, is_iterable, pyLen, pyElems, h, roughLoop_floats]
  · simp [_lsts_roughly_equal, is_iterable, pyLen, pyElems, h]

/-- When each comparison returns a Boolean (no kind error), the attribute loop
raises `GeometryMismatch` at the first slice whose value is not roughly equal
to the first slice's, and succeeds when there is none. -/
theorem saeLoop_find (name : String) (v : PyVal) :
    ∀ tl : List Dataset,
      (∀ d ∈ tl, ∃ b, _lsts_roughly_equal (pyGetattr d name) v = .ok b) →
      saeLoop name v tl =
        match tl.find? (fun d =>
            decide (_lsts_roughly_equal (pyGetattr d name) v ≠ .ok true)) with
        | some d => .error (.geometryMismatch name (pyGetattr d name) v)
        | none => .ok ()
  | [] => fun _ => rfl
  | d :: rest => fun hall => by
      obtain ⟨b, hb⟩ := hall d (List.mem_cons_self d rest)
      have ih := saeLoop_find name v rest fun e he => hall e (List.mem_cons_of_mem d he)
      cases b
      · simp [saeLoop, hb, List.find?_cons]
      · simp [saeLoop, hb, List.find?_cons, ih]

/-! ## Concrete test slices -/

/-- A well-formed reference slice (orthonormal axial orientation, unit pixel
spacing, a 1×1 pixel buffer) used to build concrete inputs. -/
def baseDS : Dataset where
  Modality := .scalar (.str "CT")
  SOPClassUID := .scalar (.str "1.2.840.10008.5.1.4.1.1.2")
  SeriesInstanceUID := .scalar (.str "1.2.3.4")
  Rows := .scalar (.int 1)
  Columns := .scalar (.int 1)
  PixelRepresentation := .scalar (.int 0)
  BitsAllocated := .scalar (.int 16)
  BitsStored := .scalar (.int 16)
  HighBit := .scalar (.int 15)
  ImageOrientationPatient := [1, 0, 0, 0, 1, 0]
  PixelSpacing := [1, 1]
  ImagePositionPatient := [0, 0, 0]
  RescaleSlope := none
  RescaleIntercept := none
  pixel_array := [[7]]
  pixelDtype := "int16"

/-- The reference slice moved to height `z` along the slice normal. -/
def atZ (z : ℚ) : Dataset := { baseDS with ImagePositionPatient := [0, 0, z] }

/-- Slice whose `Rows` attribute is the float `5`. -/
def dsRowsA : Dataset := { baseDS with Rows := .scalar (.float 5) }

/-- Slice whose `Rows` attribute is the float `5.0005`, within `0.001` of
`dsRowsA`'s. -/
def dsRowsB : Dataset := { atZ 1 with Rows := .scalar (.float (10001/2000)) }

/-- C6 counterexample: the two slices' `Rows` values are numeric scalars that
differ by `0.0005 ≤ 0.001`, yet the attribute validator raises
`GeometryMismatch`, because scalar (non-iterable) values are compared with
exact Python equality rather than with the claimed `0.001` tolerance. -/
theorem claim_C6_counterexample :
    _validate_slices_form_uniform_grid [dsRowsA, dsRowsB] =
      .error (.geometryMismatch "Rows" (.scalar (.float (10001/2000)))
        (.scalar (.float 5)))
    ∧ |(10001/2000 : ℚ) - 5| ≤ 1/1000 := by
  constructor
  · with_unfolding_all rfl
  · rw [abs_le]
    constructor <;> norm_num

/-- C6 (amended): the attribute validator compares the first slice's value
against every other slice's, raising `GeometryMismatch` naming the attribute
and the two differing values at the first mismatching slice; the `0.001`
absolute tolerance applies only elementwise to iterable (sequence) attribute
values, while non-iterable scalar values — numeric or not — are compared with
exact Python equality. -/
theorem claim_C6 :
    (∀ v w : PyVal, is_iterable v = false → _lsts_roughly_equal v w = .ok (pyEq v w))
    ∧ (∀ xs ys : List ℚ,
        _lsts_roughly_equal (.list (xs.map PyScalar.float)) (.list (ys.map PyScalar.float)) =
          .ok (decide (xs.length = ys.length) &&
            (xs.zip ys).all fun p => |p.2 - p.1| ≤ 1/1000))
    ∧ (∀ (d0 : Dataset) (tl : List Dataset) (name : String),
        name ≠ "SeriesInstanceUID" →
        (∀ d ∈ tl, ∃ b, _lsts_roughly_equal (pyGetattr d name) (pyGetattr d0 name) = .ok b) →
        _slice_attribute_equal (d0 :: tl) name =
          match tl.find? (fun d =>
              decide (_lsts_roughly_equal (pyGetattr d name) (pyGetattr d0 name) ≠ .ok true)) with
          | some d => .error (.geometryMismatch name (pyGetattr d name) (pyGetattr d0 name))
          | none => .ok ()) := by
  refine ⟨lsts_roughly_equal_scalar, lsts_roughly_equal_floats, ?_⟩
  intro d0 tl name hname hall
  unfold _slice_attribute_equal
  rw [if_neg hname]
  exact saeLoop_find name (pyGetattr d0 name) tl hall

/-- C6 witness: the amended characterization applied at a concrete mismatch. -/
theorem claim_C6_witness :
    _slice_attribute_equal [dsRowsA, dsRowsB] "Rows" =
      .error (.geometryMismatch "Rows" (.scalar (.float (10001/2000)))
        (.scalar (.float 5))) := by
  have h := claim_C6.2.2 dsRowsA [dsRowsB] "Rows" (by decide)
    (by
      intro d hd
      rw [List.mem_singleton] at hd
      subst hd
      exact ⟨false, by with_unfolding_all rfl⟩)
  rw [h]
  with_unfolding_all rfl

/-- C2: contrary to the claim, a valid single-slice input does not succeed.
The slice is perfectly well-formed (its orientation validates cleanly, and
`_slice_spacing` on it would indeed be `0`), but the spacing check takes
`np.diff` of the single sorted position — an empty array — and indexes it at
`0`, so the pipeline raises an uncaught `IndexError` inside validation before
any volume or transform is produced. -/
theorem claim_C2 :
    combine_slices [baseDS] = .error .indexError
    ∧ _validate_image_orientation baseDS.ImageOrientationPatient = .ok []
    ∧ _slice_spacing [baseDS] = .ok 0
    ∧ _check_for_missing_slices [0] = .error .indexError := by
  refine ⟨?_, ?_, ?_, ?_⟩ <;> with_unfolding_all rfl

/-- C1 counterexample: positions `0, 1, 2.2` give sorted differences
`[1, 6/5]`.  Their maximum relative deviation from the mean spacing `11/10`
is `1/11 ≤ 1/10`, so by the claim the pipeline should only warn — but the
code measures deviations against the *first* difference
(`np.allclose(diffs, diffs[0], rtol=1e-1)`), for which `|6/5 - 1| = 1/5 >
1/10`, and raises `MissingSlices`. -/
theorem claim_C1_counterexample :
    combine_slices [baseDS, atZ 1, atZ (11/5)] = .error .missingSlices
    ∧ _slice_positions [baseDS, atZ 1, atZ (11/5)] = .ok [0, 1, 11/5]
    ∧ specMaxRelDevFromMean [0, 1, 11/5] = 1/11
    ∧ ((1/11 : ℚ) ≤ 1/10 ∧ (1/100000 : ℚ) < 1/11) := by
  refine ⟨?_, ?_, ?_, by norm_num, by norm_num⟩ <;> with_unfolding_all rfl

/-- Lemma: `npAllclose` unfolded to its elementwise meaning. -/
theorem npAllclose_iff (xs : List ℚ) (b r : ℚ) :
    npAllclose xs b r = true ↔ ∀ a ∈ xs, |a - b| ≤ r * |b| := by
  simp [npAllclose]

/-- C1 (amended): for at least two slices, after sorting the through-plane
positions and taking consecutive differences, the pipeline raises
`MissingSlices` exactly when some difference deviates from the *first*
difference by more than `1e-1` times the first difference's absolute value
(not, as claimed, relative to the arithmetic mean); when every difference is
within that bound, it succeeds, warning about non-uniform spacing exactly
when some difference deviates from the first by more than `1e-5` times its
absolute value; and the slice spacing used by the transform is the mean of
the differences. -/
theorem claim_C1 (ps : List ℚ) (h2 : 2 ≤ ps.length) :
    (_check_for_missing_slices ps = .error .missingSlices ↔
      ∃ d ∈ diffList (sortQ ps),
        (1/10) * |(diffList (sortQ ps)).headD 0| < |d - (diffList (sortQ ps)).headD 0|)
    ∧ ((∀ d ∈ diffList (sortQ ps),
          |d - (diffList (sortQ ps)).headD 0| ≤ (1/10) * |(diffList (sortQ ps)).headD 0|) →
        _check_for_missing_slices ps =
          .ok (if ∀ d ∈ diffList (sortQ ps),
                  |d - (diffList (sortQ ps)).headD 0| ≤
                    (1/100000) * |(diffList (sortQ ps)).headD 0|
               then [] else [Warning.nonUniformSpacing]))
    ∧ (∀ l : List Dataset, 1 < l.length → ∀ qs, _slice_positions l = .ok qs →
        _slice_spacing l = .ok (qMean (diffList (sortQ qs)))) := by
  have hne : diffList (sortQ ps) ≠ [] := by
    intro hnil
    have h3 : (diffList (sortQ ps)).length = ps.length - 1 := by
      rw [diffList_length, sortQ_length]
    rw [hnil] at h3
    simp at h3
    omega
  obtain ⟨d0, tl, hds⟩ : ∃ d0 tl, diffList (sortQ ps) = d0 :: tl := by
    cases hd : diffList (sortQ ps) with
    | nil => exact absurd hd hne
    | cons a b => exact ⟨a, b, rfl⟩
  refine ⟨?_, ?_, ?_⟩
  · unfold _check_for_missing_slices
    rw [hds]
    simp only [List.head?_cons, List.headD_cons]
    by_cases hA : npAllclose (d0 :: tl) d0 (1/10) = true
    · have hall := (npAllclose_iff _ _ _).mp hA
      rw [hA]
      constructor
      · intro hc
        simp at hc
      · rintro ⟨d, hd, hlt⟩
        exact absurd (hall d hd) (not_le.mpr hlt)
    · have hAf : npAllclose (d0 :: tl) d0 (1/10) = false := by simpa using hA
      have hex : ∃ d ∈ d0 :: tl, (1/10) * |d0| < |d - d0| := by
        rw [npAllclose_iff] at hA
        push_neg at hA
        obtain ⟨d, hd, hlt⟩ := hA
        exact ⟨d, hd, not_le.mp (not_le.mpr hlt)⟩
      rw [hAf]
      constructor
      · intro _
        exact hex
      · intro _
        simp
  · intro hall
    have hA : npAllclose (d0 :: tl) d0 (1/10) = true := by
      rw [npAllclose_iff]
      intro a ha
      have h := hall a (by rw [hds]; exact ha)
      rw [hds] at h
      simpa using h
    unfold _check_for_missing_slices
    rw [hds]
    simp only [List.head?_cons]
    rw [hA]
    by_cases hB : npAllclose (d0 :: tl) d0 (1/100000) = true
    · have h5 : ∀ d ∈ d0 :: tl,
          |d - (d0 :: tl).headD 0| ≤ (1/100000) * |(d0 :: tl).headD 0| := by
        simp only [List.headD_cons]
        exact (npAllclose_iff _ _ _).mp hB
      rw [if_pos h5, hB]
      simp
    · have h5 : ¬ ∀ d ∈ d0 :: tl,
          |d - (d0 :: tl).headD 0| ≤ (1/100000) * |(d0 :: tl).headD 0| := by
        simp only [List.headD_cons]
        rw [npAllclose_iff] at hB
        exact hB
      have hBf : npAllclose (d0 :: tl) d0 (1/100000) = false := by simpa using hB
      rw [if_neg h5, hBf]
      simp
  · intro l hl qs hqs
    unfold _slice_spacing
    rw [if_pos hl, hqs]
    rfl

/-- C1 witness: for evenly spaced positions `0, 1, 2`, the amended
characterization shows no `MissingSlices` failure is raised. -/
theorem claim_C1_witness :
    _check_for_missing_slices [0, 1, 2] ≠ .error .missingSlices := by
  intro hc
  have h := (claim_C1 [0, 1, 2] (by norm_num)).1
  have hex := h.mp hc
  revert hex
  with_unfolding_all decide

/-- A slice at the same spatial position as `baseDS` but with different pixel
data. -/
def dsTie : Dataset := { baseDS with pixel_array := [[9]] }

/-- C5 counterexample: two distinct slices with equal sort keys.  Contrary to
the claim, the sorter does not return the input-order-preserving permutation:
`sorted(zip(keys, datasets))` falls back to comparing the dataset objects when
the keys tie, which fails (pydicom datasets define no ordering), so no
stable tie-breaking happens. -/
theorem claim_C5_counterexample :
    _sort_by_slice_spacing [baseDS, dsTie] = .error .typeError
    ∧ _slice_positions [baseDS, dsTie] = .ok [0, 0]
    ∧ baseDS ≠ dsTie := by
  refine ⟨?_, ?_, ?_⟩ <;> with_unfolding_all decide

/-- C5 (amended): when the sort keys (projection of each slice's position onto
the slice-normal derived from the first slice's orientation) are pairwise
distinct, the sorter succeeds and returns a permutation of the input that is
ascending in the sort key; when two keys are equal the underlying tuple sort
compares the slice records themselves and fails, so there is no stable
tie-breaking. -/
theorem claim_C5 (ds : List Dataset) (d0 : Dataset) (tl : List Dataset)
    (hds : ds = d0 :: tl)
    (hnd : (ds.map (keyOf (sliceCosine d0.ImageOrientationPatient))).Nodup) :
    _sort_by_slice_spacing ds =
      .ok (ds.insertionSort fun a b =>
        keyOf (sliceCosine d0.ImageOrientationPatient) a ≤
          keyOf (sliceCosine d0.ImageOrientationPatient) b)
    ∧ (ds.insertionSort fun a b =>
        keyOf (sliceCosine d0.ImageOrientationPatient) a ≤
          keyOf (sliceCosine d0.ImageOrientationPatient) b).Perm ds
    ∧ ((ds.insertionSort fun a b =>
        keyOf (sliceCosine d0.ImageOrientationPatient) a ≤
          keyOf (sliceCosine d0.ImageOrientationPatient) b).map
        (keyOf (sliceCosine d0.ImageOrientationPatient))).Sorted (· ≤ ·) := by
  subst hds
  haveI hTot : IsTotal Dataset (fun a b =>
      keyOf (sliceCosine d0.ImageOrientationPatient) a ≤
        keyOf (sliceCosine d0.ImageOrientationPatient) b) :=
    ⟨fun a b => le_total _ _⟩
  haveI hTrans : IsTrans Dataset (fun a b =>
      keyOf (sliceCosine d0.ImageOrientationPatient) a ≤
        keyOf (sliceCosine d0.ImageOrientationPatient) b) :=
    ⟨fun _ _ _ hab hbc => le_trans hab hbc⟩
  refine ⟨?_, List.perm_insertionSort _ _, ?_⟩
  · simp only [_sort_by_slice_spacing]
    rw [if_pos hnd]
  · exact List.pairwise_map.mpr (List.sorted_insertionSort _ _)

/-- C5 witness: two slices with distinct keys are returned in ascending key
order. -/
theorem claim_C5_witness :
    _sort_by_slice_spacing [atZ 5, baseDS] = .ok [baseDS, atZ 5] := by
  have h := (claim_C5 [atZ 5, baseDS] (atZ 5) [baseDS] rfl
    (by with_unfolding_all decide)).1
  rw [h]
  with_unfolding_all rfl

/-- A dot product of a vector with itself is nonnegative. -/
theorem dot3_self_nonneg (v : V3) : 0 ≤ dot3 v v := by
  obtain ⟨a, b, c⟩ := v
  simp only [dot3]
  have ha := mul_self_nonneg a
  have hb := mul_self_nonneg b
  have hc := mul_self_nonneg c
  linarith

/-- Lemma: `almostZero` unfolded. -/
theorem almostZero_iff (v tol : ℚ) : almostZero v tol = true ↔ |v| ≤ tol := by
  simp [almostZero]

/-- The squared-norm window test is exactly the `|‖v‖ - 1| ≤ tol` test of the
source (which computes `np.linalg.norm`, a real square root). -/
theorem normSqWithin_iff_sqrt (s t : ℚ) (hs : 0 ≤ s) (ht0 : 0 < t) (ht1 : t ≤ 1) :
    normSqWithin s t = true ↔ |Real.sqrt (s : ℝ) - 1| ≤ (t : ℝ) := by
  have hsR : (0:ℝ) ≤ (s:ℝ) := by exact_mod_cast hs
  have htR : (t:ℝ) ≤ 1 := by exact_mod_cast ht1
  have ht0R : (0:ℝ) < (t:ℝ) := by exact_mod_cast ht0
  have h1t : (0:ℝ) ≤ 1 - (t:ℝ) := by linarith
  have h1t' : (0:ℝ) ≤ 1 + (t:ℝ) := by linarith
  have hbool : normSqWithin s t = true ↔ ((1 - t)^2 ≤ s ∧ s ≤ (1 + t)^2) := by
    simp [normSqWithin]
  rw [hbool, abs_le]
  constructor
  · rintro ⟨h1, h2⟩
    constructor
    · have hle : ((1:ℝ) - t)^2 ≤ (s:ℝ) := by exact_mod_cast h1
      have := (Real.le_sqrt h1t hsR).mpr hle
      linarith
    · have hle : (s:ℝ) ≤ ((1:ℝ) + t)^2 := by exact_mod_cast h2
      have := (Real.sqrt_le_left h1t').mpr hle
      linarith
  · rintro ⟨h1, h2⟩
    constructor
    · have hsq : ((1:ℝ) - t) ≤ Real.sqrt s := by linarith
      have := (Real.le_sqrt h1t hsR).mp hsq
      exact_mod_cast this
    · have hsq : Real.sqrt (s:ℝ) ≤ (1:ℝ) + t := by linarith
      have := (Real.sqrt_le_left h1t').mp hsq
      exact_mod_cast this

/-- Transport a Boolean test's meaning through negation. -/
theorem bool_not_iff {b : Bool} {p : Prop} (h : b = true ↔ p) : (!b) = true ↔ ¬ p := by
  cases b <;> simp_all

/-- Membership in a conditional singleton warning list. -/
theorem mem_warnIte (w w' : Warning) (b : Bool) :
    (w ∈ (if b = true then [w'] else ([] : List Warning))) ↔ (b = true ∧ w = w') := by
  cases b <;> simp

/-- C7: with the orthogonality test performed first, the orientation
validator fails with `NonOrthogonalOrientation` exactly when `|row·column|`
exceeds `1e-4`; it fails with `InvalidDirectionCosine` exactly when the
orthogonality test passes and a cosine's norm differs from `1` by more than
`1e-4`; it succeeds exactly when all three quantities are within `1e-4`; and
on success each warning is present exactly when the corresponding quantity
exceeds `1e-8` (so a quantity strictly between `1e-8` and `1e-4` yields a
warning and no failure). -/
theorem claim_C7 (o : List ℚ) (h6 : o.length = 6) :
    (_validate_image_orientation o = .error .nonOrthogonal ↔
      1/10000 < |dot3 (rowCosine o) (colCosine o)|)
    ∧ ((∃ w, _validate_image_orientation o = .error (.invalidDirectionCosine w)) ↔
        (|dot3 (rowCosine o) (colCosine o)| ≤ 1/10000 ∧
          (1/10000 < |Real.sqrt ((dot3 (rowCosine o) (rowCosine o) : ℚ) : ℝ) - 1| ∨
           1/10000 < |Real.sqrt ((dot3 (colCosine o) (colCosine o) : ℚ) : ℝ) - 1|)))
    ∧ ((∃ ws, _validate_image_orientation o = .ok ws) ↔
        (|dot3 (rowCosine o) (colCosine o)| ≤ 1/10000 ∧
         |Real.sqrt ((dot3 (rowCosine o) (rowCosine o) : ℚ) : ℝ) - 1| ≤ 1/10000 ∧
         |Real.sqrt ((dot3 (colCosine o) (colCosine o) : ℚ) : ℝ) - 1| ≤ 1/10000))
    ∧ (∀ ws, _validate_image_orientation o = .ok ws →
        ((Warning.notQuiteOrthogonal ∈ ws ↔
            1/100000000 < |dot3 (rowCosine o) (colCosine o)|)
         ∧ (Warning.rowNormNotQuiteOne ∈ ws ↔
            1/100000000 < |Real.sqrt ((dot3 (rowCosine o) (rowCosine o) : ℚ) : ℝ) - 1|)
         ∧ (Warning.colNormNotQuiteOne ∈ ws ↔
            1/100000000 < |Real.sqrt ((dot3 (colCosine o) (colCosine o) : ℚ) : ℝ) - 1|))) := by
  have hrr0 : (0:ℚ) ≤ dot3 (rowCosine o) (rowCosine o) := dot3_self_nonneg _
  have hcc0 : (0:ℚ) ≤ dot3 (colCosine o) (colCosine o) := dot3_self_nonneg _
  have cast4 : (((1:ℚ)/10000 : ℚ) : ℝ) = 1/10000 := by norm_num
  have cast8 : (((1:ℚ)/100000000 : ℚ) : ℝ) = 1/100000000 := by norm_num
  have e1 : almostZero (dot3 (rowCosine o) (colCosine o)) (1/10000) = true ↔
      |dot3 (rowCosine o) (colCosine o)| ≤ 1/10000 := almostZero_iff _ _
  have e1w : almostZero (dot3 (rowCosine o) (colCosine o)) (1/100000000) = true ↔
      |dot3 (rowCosine o) (colCosine o)| ≤ 1/100000000 := almostZero_iff _ _
  have e2 : normSqWithin (dot3 (rowCosine o) (rowCosine o)) (1/10000) = true ↔
      |Real.sqrt ((dot3 (rowCosine o) (rowCosine o) : ℚ) : ℝ) - 1| ≤ 1/10000 := by
    rw [normSqWithin_iff_sqrt _ _ hrr0 (by norm_num) (by norm_num), cast4]
  have e2w : normSqWithin (dot3 (rowCosine o) (rowCosine o)) (1/100000000) = true ↔
      |Real.sqrt ((dot3 (rowCosine o) (rowCosine o) : ℚ) : ℝ) - 1| ≤ 1/100000000 := by
    rw [normSqWithin_iff_sqrt _ _ hrr0 (by norm_num) (by norm_num), cast8]
  have e3 : normSqWithin (dot3 (colCosine o) (colCosine o)) (1/10000) = true ↔
      |Real.sqrt ((dot3 (colCosine o) (colCosine o) : ℚ) : ℝ) - 1| ≤ 1/10000 := by
    rw [normSqWithin_iff_sqrt _ _ hcc0 (by norm_num) (by norm_num), cast4]
  have e3w : normSqWithin (dot3 (colCosine o) (colCosine o)) (1/100000000) = true ↔
      |Real.sqrt ((dot3 (colCosine o) (colCosine o) : ℚ) : ℝ) - 1| ≤ 1/100000000 := by
    rw [normSqWithin_iff_sqrt _ _ hcc0 (by norm_num) (by norm_num), cast8]
  by_cases b1 : almostZero (dot3 (rowCosine o) (colCosine o)) (1/10000) = true
  · by_cases b2 : normSqWithin (dot3 (rowCosine o) (rowCosine o)) (1/10000) = true
    · by_cases b3 : normSqWithin (dot3 (colCosine o) (colCosine o)) (1/10000) = true
      · have hval : _validate_image_orientation o = .ok
            ((if !(almostZero (dot3 (rowCosine o) (colCosine o)) (1/100000000)) then
                [Warning.notQuiteOrthogonal] else []) ++
             (if !(normSqWithin (dot3 (rowCosine o) (rowCosine o)) (1/100000000)) then
                [Warning.rowNormNotQuiteOne] else []) ++
             (if !(normSqWithin (dot3 (colCosine o) (colCosine o)) (1/100000000)) then
                [Warning.colNormNotQuiteOne] else [])) := by
          simp only [_validate_image_orientation]
          rw [b1, b2, b3]
          rfl
        refine ⟨?_, ?_, ?_, ?_⟩
        · rw [hval]
          exact ⟨fun h => by simp at h,
            fun hlt => absurd (e1.mp b1) (not_le.mpr hlt)⟩
        · constructor
          · rintro ⟨w, hw⟩
            rw [hval] at hw
            simp at hw
          · rintro ⟨_, hor⟩
            rcases hor with hr | hc
            · exact absurd (e2.mp b2) (not_le.mpr hr)
            · exact absurd (e3.mp b3) (not_le.mpr hc)
        · exact ⟨fun _ => ⟨e1.mp b1, e2.mp b2, e3.mp b3⟩, fun _ => ⟨_, hval⟩⟩
        · intro ws hws
          rw [hval] at hws
          injection hws with h
          subst h
          refine ⟨?_, ?_, ?_⟩
          · rw [List.mem_append, List.mem_append, mem_warnIte, mem_warnIte, mem_warnIte]
            simpa using (bool_not_iff e1w).trans not_le
          · rw [List.mem_append, List.mem_append, mem_warnIte, mem_warnIte, mem_warnIte]
            simpa using (bool_not_iff e2w).trans not_le
          · rw [List.mem_append, List.mem_append, mem_warnIte, mem_warnIte, mem_warnIte]
            simpa using (bool_not_iff e3w).trans not_le
      · have hf3 : normSqWithin (dot3 (colCosine o) (colCosine o)) (1/10000) = false := by
          simpa using b3
        have hval : _validate_image_orientation o =
            .error (.invalidDirectionCosine "column") := by
          simp only [_validate_image_orientation]
          rw [b1, b2, hf3]
          rfl
        refine ⟨?_, ?_, ?_, ?_⟩
        · rw [hval]
          exact ⟨fun h => by simp at h,
            fun hlt => absurd (e1.mp b1) (not_le.mpr hlt)⟩
        · constructor
          · intro _
            exact ⟨e1.mp b1, Or.inr (not_le.mp fun hc => b3 (e3.mpr hc))⟩
          · intro _
            exact ⟨"column", hval⟩
        · constructor
          · rintro ⟨ws, hws⟩
            rw [hval] at hws
            simp at hws
          · rintro ⟨_, _, hcle⟩
            exact absurd (e3.mpr hcle) b3
        · intro ws hws
          rw [hval] at hws
          simp at hws
    · have hf2 : normSqWithin (dot3 (rowCosine o) (rowCosine o)) (1/10000) = false := by
        simpa using b2
      have hval : _validate_image_orientation o =
          .error (.invalidDirectionCosine "row") := by
        simp only [_validate_image_orientation]
        rw [b1, hf2]
        rfl
      refine ⟨?_, ?_, ?_, ?_⟩
      · rw [hval]
        exact ⟨fun h => by simp at h,
          fun hlt => absurd (e1.mp b1) (not_le.mpr hlt)⟩
      · constructor
        · intro _
          exact ⟨e1.mp b1, Or.inl (not_le.mp fun hc => b2 (e2.mpr hc))⟩
        · intro _
          exact ⟨"row", hval⟩
      · constructor
        · rintro ⟨ws, hws⟩
          rw [hval] at hws
          simp at hws
        · rintro ⟨_, hrle, _⟩
          exact absurd (e2.mpr hrle) b2
      · intro ws hws
        rw [hval] at hws
        simp at hws
  · have hf1 : almostZero (dot3 (rowCosine o) (colCosine o)) (1/10000) = false := by
      simpa using b1
    have hval : _validate_image_orientation o = .error .nonOrthogonal := by
      simp only [_validate_image_orientation]
      rw [hf1]
      rfl
    have hgt : 1/10000 < |dot3 (rowCosine o) (colCosine o)| :=
      not_le.mp fun hc => b1 (e1.mpr hc)
    refine ⟨?_, ?_, ?_, ?_⟩
    · exact ⟨fun _ => hgt, fun _ => hval⟩
    · constructor
      · rintro ⟨w, hw⟩
        rw [hval] at hw
        simp at hw
      · rintro ⟨hle, _⟩
        exact absurd (e1.mpr hle) b1
    · constructor
      · rintro ⟨ws, hws⟩
        rw [hval] at hws
        simp at hws
      · rintro ⟨hle, _, _⟩
        exact absurd (e1.mpr hle) b1
    · intro ws hws
      rw [hval] at hws
      simp at hws

/-- C7 witness: the orthonormal axial orientation is not rejected as
non-orthogonal. -/
theorem claim_C7_witness :
    _validate_image_orientation [1, 0, 0, 0, 1, 0] ≠ .error .nonOrthogonal := by
  intro hc
  have h := (claim_C7 [1, 0, 0, 0, 1, 0] (by decide)).1
  have hlt := h.mp hc
  revert hlt
  with_unfolding_all decide

/-- C8: for a valid list whose sort succeeds with first-sorted slice `d0`
carrying pixel spacing `[rs, cs]`, and mean slice spacing `s`, the transform
has column 0 = rowCosine·cs, column 1 = colCosine·rs, column 2 =
sliceNormal·s, column 3 = `d0`'s position, bottom row `(0,0,0,1)`; and the
voxel volume stacks the same `d0` at depth `0`. -/
theorem claim_C8 (ds : List Dataset) (d0 : Dataset) (tl : List Dataset) (s rs cs : ℚ)
    (hval : ∃ ws, _validate_slices_form_uniform_grid ds = .ok ws)
    (hsort : _sort_by_slice_spacing ds = .ok (d0 :: tl))
    (hps : d0.PixelSpacing = [rs, cs])
    (hsp : _slice_spacing ds = .ok s) :
    _ijk_to_patient_xyz_transform_matrix ds = .ok
      [[(rowCosine d0.ImageOrientationPatient).1 * cs,
        (colCosine d0.ImageOrientationPatient).1 * rs,
        (sliceCosine d0.ImageOrientationPatient).1 * s,
        (vec3 d0.ImagePositionPatient).1],
       [(rowCosine d0.ImageOrientationPatient).2.1 * cs,
        (colCosine d0.ImageOrientationPatient).2.1 * rs,
        (sliceCosine d0.ImageOrientationPatient).2.1 * s,
        (vec3 d0.ImagePositionPatient).2.1],
       [(rowCosine d0.ImageOrientationPatient).2.2 * cs,
        (colCosine d0.ImageOrientationPatient).2.2 * rs,
        (sliceCosine d0.ImageOrientationPatient).2.2 * s,
        (vec3 d0.ImagePositionPatient).2.2],
       [0, 0, 0, 1]]
    ∧ ∀ v, _merge_slice_pixel_arrays ds = .ok v →
        v.data.head? = some (if (d0 :: tl).any _requires_rescaling then scaleSlice d0
          else pyT d0.pixel_array) := by
  constructor
  · unfold _ijk_to_patient_xyz_transform_matrix
    rw [hsort]
    simp only [okBind]
    rw [hsp]
    simp only [okBind]
    unfold transformFrom
    rw [hps]
    rfl
  · intro v hv
    cases ds with
    | nil =>
        rw [show _sort_by_slice_spacing [] = (.error .indexError : Except Err (List Dataset))
          from rfl] at hsort
        exact absurd hsort (by simp)
    | cons f rest =>
        unfold _merge_slice_pixel_arrays at hv
        rw [hsort] at hv
        simp only [okBind] at hv
        by_cases hb : (d0 :: tl).any _requires_rescaling = true
        · rw [if_pos hb] at hv
          injection hv with hv
          subst hv
          simp [hb]
        · rw [if_neg hb] at hv
          injection hv with hv
          subst hv
          simp [hb]

/-- C8 witness: the spec's worked example — two axial slices at heights `0`
and `5` with unit pixel spacing. -/
theorem claim_C8_witness :
    _ijk_to_patient_xyz_transform_matrix [baseDS, atZ 5] =
      .ok [[1, 0, 0, 0], [0, 1, 0, 0], [0, 0, 5, 0], [0, 0, 0, 1]] := by
  have h := (claim_C8 [baseDS, atZ 5] baseDS [atZ 5] 5 1 1
      ⟨[], by with_unfolding_all rfl⟩ (by with_unfolding_all rfl) rfl
      (by with_unfolding_all rfl)).1
  rw [h]
  with_unfolding_all rfl

/-- Lemma: `getD` through a `map`, in bounds. -/
theorem getD_map_lists (l : List (List ℚ)) (g : List ℚ → List ℚ) (i : ℕ)
    (hi : i < l.length) : (l.map g).getD i [] = g (l.getD i []) := by
  rw [List.getD_eq_getElem?_getD, List.getElem?_map, List.getElem?_eq_getElem hi,
    List.getD_eq_getElem?_getD, List.getElem?_eq_getElem hi]
  rfl

/-- Lemma: `getD` through an elementwise `map`, in bounds. -/
theorem getD_map_entries (row : List ℚ) (f : ℚ → ℚ) (j : ℕ)
    (hj : j < row.length) : (row.map f).getD j 0 = f (row.getD j 0) := by
  rw [List.getD_eq_getElem?_getD, List.getElem?_map, List.getElem?_eq_getElem hj,
    List.getD_eq_getElem?_getD, List.getElem?_eq_getElem hj]
  rfl

/-- Row `i` of the transpose is the `i`-th entry of every source row. -/
theorem pyT_row (r0 : List ℚ) (rest : List (List ℚ)) (i : ℕ) (hi : i < r0.length) :
    (pyT (r0 :: rest)).getD i [] = (r0 :: rest).map fun row => row.getD i 0 := by
  unfold pyT
  rw [List.getD_eq_getElem?_getD, List.getElem?_map, List.getElem?_range hi]
  rfl

/-- The transpose has one row per source column. -/
theorem pyT_length (r0 : List ℚ) (rest : List (List ℚ)) :
    (pyT (r0 :: rest)).length = r0.length := by
  unfold pyT
  rw [List.length_map, List.length_range]

/-- Lemma: `getD` through a `map` on rows, with result default `0`. -/
theorem getD_map_entries' (l : List (List ℚ)) (g : List ℚ → ℚ) (j : ℕ)
    (hj : j < l.length) : (l.map g).getD j 0 = g (l.getD j []) := by
  rw [List.getD_eq_getElem?_getD, List.getElem?_map, List.getElem?_eq_getElem hj,
    List.getD_eq_getElem?_getD, List.getElem?_eq_getElem hj]
  rfl

/-- numpy `.T` indexing: entry `(i, j)` of the transpose is entry `(j, i)` of
the source array. -/
theorem pyT_getD (m : List (List ℚ)) (i j : ℕ) (r0 : List ℚ) (rest : List (List ℚ))
    (hm : m = r0 :: rest) (hi : i < r0.length) (hj : j < m.length) :
    ((pyT m).getD i []).getD j 0 = (m.getD j []).getD i 0 := by
  subst hm
  rw [pyT_row r0 rest i hi]
  exact getD_map_entries' _ _ _ hj

/-- A successful sort returns a permutation of its input. -/
theorem sort_ok_perm (ds sorted : List Dataset)
    (h : _sort_by_slice_spacing ds = .ok sorted) : sorted.Perm ds := by
  cases ds with
  | nil => simp [_sort_by_slice_spacing] at h
  | cons d0 tl =>
      simp only [_sort_by_slice_spacing] at h
      split at h
      · injection h with h
        subst h
        exact List.perm_insertionSort _ _
      · exact absurd h (by simp)

/-- C3: the rescale trigger is a whole-list property (any slice with a
non-absent, non-empty rescale attribute); when triggered, the volume has
dtype `float32` and every sorted slice is transposed and rescaled by its own
effective slope and intercept; otherwise the dtype is the first (pre-sort)
slice's native pixel dtype and the transposed buffers are copied unchanged.
Defaults slope `1` / intercept `0` are substituted for absent or empty
rescale attributes, and the transposition swaps array indices. -/
theorem claim_C3 (ds sorted : List Dataset) (d0 : Dataset)
    (h0 : ds.head? = some d0)
    (hval : ∃ ws, _validate_slices_form_uniform_grid ds = .ok ws)
    (hsort : _sort_by_slice_spacing ds = .ok sorted)
    (hdt : ∀ d ∈ ds, d.pixelDtype = d0.pixelDtype) :
    (sorted.any _requires_rescaling = ds.any _requires_rescaling)
    ∧ (ds.any _requires_rescaling = true →
        _merge_slice_pixel_arrays ds = .ok ⟨"float32", sorted.map scaleSlice⟩)
    ∧ (ds.any _requires_rescaling = false →
        _merge_slice_pixel_arrays ds =
          .ok ⟨d0.pixelDtype, sorted.map fun d => pyT d.pixel_array⟩)
    ∧ (∀ d : Dataset, _requires_rescaling d = false ↔
        ((d.RescaleSlope = none ∨ d.RescaleSlope = some none) ∧
         (d.RescaleIntercept = none ∨ d.RescaleIntercept = some none)))
    ∧ (∀ d : Dataset,
        ((d.RescaleSlope = none ∨ d.RescaleSlope = some none) → effSlope d = 1) ∧
        ((d.RescaleIntercept = none ∨ d.RescaleIntercept = some none) →
          effIntercept d = 0))
    ∧ (∀ (d : Dataset) (i j : ℕ) (r0 : List ℚ) (rest : List (List ℚ)),
        d.pixel_array = r0 :: rest → i < r0.length → j < d.pixel_array.length →
        (((scaleSlice d).getD i []).getD j 0 =
            ((d.pixel_array.getD j []).getD i 0) * effSlope d + effIntercept d
          ∧ ((pyT d.pixel_array).getD i []).getD j 0 =
            (d.pixel_array.getD j []).getD i 0)) := by
  have hperm : sorted.Perm ds := sort_ok_perm ds sorted hsort
  have hany : sorted.any _requires_rescaling = ds.any _requires_rescaling := by
    rw [Bool.eq_iff_iff, List.any_eq_true, List.any_eq_true]
    constructor
    · rintro ⟨x, hx, hp⟩
      exact ⟨x, hperm.mem_iff.mp hx, hp⟩
    · rintro ⟨x, hx, hp⟩
      exact ⟨x, hperm.mem_iff.mpr hx, hp⟩
  obtain ⟨f, rest0, rfl⟩ : ∃ f rest0, ds = f :: rest0 := by
    cases ds with
    | nil => simp at h0
    | cons a b => exact ⟨a, b, rfl⟩
  have hf : f = d0 := by simpa using h0
  refine ⟨hany, ?_, ?_, ?_, ?_, ?_⟩
  · intro hb
    unfold _merge_slice_pixel_arrays
    rw [hsort]
    simp only [okBind]
    rw [if_pos (hany.trans hb)]
  · intro hb
    unfold _merge_slice_pixel_arrays
    rw [hsort]
    simp only [okBind]
    rw [if_neg (by rw [hany, hb]; exact Bool.false_ne_true), hf]
  · intro d
    rcases hs : d.RescaleSlope with _ | (_ | q) <;>
      rcases hi : d.RescaleIntercept with _ | (_ | p) <;>
        simp [_requires_rescaling, hs, hi]
  · intro d
    constructor
    · rintro (hs | hs) <;> simp [effSlope, hs]
    · rintro (hi | hi) <;> simp [effIntercept, hi]
  · intro d i j r0 rest hm hi hj
    have hT := pyT_getD d.pixel_array i j r0 rest hm hi hj
    refine ⟨?_, hT⟩
    have hlenT : (pyT d.pixel_array).length = r0.length := by
      rw [hm]
      exact pyT_length r0 rest
    have hrow : (pyT d.pixel_array).getD i [] = d.pixel_array.map fun row => row.getD i 0 := by
      rw [hm]
      exact pyT_row r0 rest i hi
    have hsc : (scaleSlice d).getD i [] =
        ((pyT d.pixel_array).getD i []).map fun v => v * effSlope d + effIntercept d := by
      unfold scaleSlice
      exact getD_map_lists _ _ i (by rw [hlenT]; exact hi)
    rw [hsc, getD_map_entries _ _ j (by rw [hrow, List.length_map]; exact hj), hT]

/-- A slice at height `1` carrying rescale slope `2` and intercept `100`. -/
def dsResc : Dataset :=
  { atZ 1 with RescaleSlope := some (some 2), RescaleIntercept := some (some 100) }

/-- C3 witness: one tagged slice (slope 2, intercept 100) forces the rescale
path; the untagged slice passes through with default slope 1, intercept 0. -/
theorem claim_C3_witness :
    _merge_slice_pixel_arrays [baseDS, dsResc] =
      .ok ⟨"float32", [[[7]], [[114]]]⟩ := by
  have h := (claim_C3 [baseDS, dsResc] [baseDS, dsResc] baseDS rfl
      ⟨[], by with_unfolding_all rfl⟩ (by with_unfolding_all rfl)
      (by intro d hd; fin_cases hd <;> rfl)).2.1 (by with_unfolding_all rfl)
  rw [h]
  with_unfolding_all rfl

/-- A dataset with its series identifier blanked, for stating that two slices
agree on everything except `SeriesInstanceUID`. -/
def stripSeries (d : Dataset) : Dataset := { d with SeriesInstanceUID := .scalar .none }

/-- Two slice lists agree pointwise on every attribute except their series
identifiers. -/
def agreeExceptSeries : List Dataset → List Dataset → Bool
  | [], [] => true
  | d :: ds, e :: es => decide (stripSeries d = stripSeries e) && agreeExceptSeries ds es
  | _, _ => false

/-- Slices that agree up to series identifier look identical to `getattr` for
every attribute other than `SeriesInstanceUID`. -/
theorem getattr_strip (d e : Dataset) (h : stripSeries d = stripSeries e)
    (name : String) (hn : name ≠ "SeriesInstanceUID") :
    pyGetattr d name = pyGetattr e name := by
  have hM : d.Modality = e.Modality := by
    have h2 := congrArg Dataset.Modality h
    simpa [stripSeries] using h2
  have hS : d.SOPClassUID = e.SOPClassUID := by
    have h2 := congrArg Dataset.SOPClassUID h
    simpa [stripSeries] using h2
  have hR : d.Rows = e.Rows := by
    have h2 := congrArg Dataset.Rows h
    simpa [stripSeries] using h2
  have hC : d.Columns = e.Columns := by
    have h2 := congrArg Dataset.Columns h
    simpa [stripSeries] using h2
  have hO : d.ImageOrientationPatient = e.ImageOrientationPatient := by
    have h2 := congrArg Dataset.ImageOrientationPatient h
    simpa [stripSeries] using h2
  have hP : d.PixelSpacing = e.PixelSpacing := by
    have h2 := congrArg Dataset.PixelSpacing h
    simpa [stripSeries] using h2
  have hPR : d.PixelRepresentation = e.PixelRepresentation := by
    have h2 := congrArg Dataset.PixelRepresentation h
    simpa [stripSeries] using h2
  have hBA : d.BitsAllocated = e.BitsAllocated := by
    have h2 := congrArg Dataset.BitsAllocated h
    simpa [stripSeries] using h2
  have hBS : d.BitsStored = e.BitsStored := by
    have h2 := congrArg Dataset.BitsStored h
    simpa [stripSeries] using h2
  have hHB : d.HighBit = e.HighBit := by
    have h2 := congrArg Dataset.HighBit h
    simpa [stripSeries] using h2
  unfold pyGetattr
  rw [hM, hS, hR, hC, hO, hP, hPR, hBA, hBS, hHB]
  rw [if_neg hn, if_neg hn]

/-- The attribute loop only looks at `getattr` values, so it cannot tell two
series-identifier-only variants apart. -/
theorem saeLoop_congr (name : String) (hn : name ≠ "SeriesInstanceUID") (v : PyVal) :
    ∀ l1 l2 : List Dataset, agreeExceptSeries l1 l2 = true →
      saeLoop name v l1 = saeLoop name v l2
  | [], [], _ => rfl
  | d :: ds, e :: es, h => by
      simp only [agreeExceptSeries, Bool.and_eq_true, decide_eq_true_eq] at h
      have ih := saeLoop_congr name hn v ds es h.2
      simp only [saeLoop]
      rw [getattr_strip d e h.1 name hn, ih]
  | [], _ :: _, h => by simp [agreeExceptSeries] at h
  | _ :: _, [], h => by simp [agreeExceptSeries] at h

/-- Lemma: `_slice_attribute_equal` is insensitive to series identifiers. -/
theorem sae_congr (l1 l2 : List Dataset) (h : agreeExceptSeries l1 l2 = true)
    (name : String) :
    _slice_attribute_equal l1 name = _slice_attribute_equal l2 name := by
  by_cases hn : name = "SeriesInstanceUID"
  · subst hn
    simp [_slice_attribute_equal]
  · unfold _slice_attribute_equal
    rw [if_neg hn, if_neg hn]
    cases l1 with
    | nil =>
        cases l2 with
        | nil => rfl
        | cons e es => simp [agreeExceptSeries] at h
    | cons d ds =>
        cases l2 with
        | nil => simp [agreeExceptSeries] at h
        | cons e es =>
            simp only [agreeExceptSeries, Bool.and_eq_true, decide_eq_true_eq] at h
            show saeLoop name (pyGetattr d name) ds = saeLoop name (pyGetattr e name) es
            rw [getattr_strip d e h.1 name hn]
            exact saeLoop_congr name hn _ ds es h.2

/-- The property loop is insensitive to series identifiers. -/
theorem validateProps_congr (l1 l2 : List Dataset) (h : agreeExceptSeries l1 l2 = true) :
    ∀ names : List String, validateProps l1 names = validateProps l2 names
  | [] => rfl
  | n :: rest => by
      simp only [validateProps]
      rw [sae_congr l1 l2 h n, validateProps_congr l1 l2 h rest]

/-- The projected positions are insensitive to series identifiers. -/
theorem positions_congr : ∀ l1 l2 : List Dataset, agreeExceptSeries l1 l2 = true →
    ∀ n : V3, l1.map (fun x => dot3 n (vec3 x.ImagePositionPatient)) =
      l2.map (fun x => dot3 n (vec3 x.ImagePositionPatient))
  | [], [], _, _ => rfl
  | d :: ds, e :: es, h, n => by
      simp only [agreeExceptSeries, Bool.and_eq_true, decide_eq_true_eq] at h
      have hp : d.ImagePositionPatient = e.ImagePositionPatient := by
        have h2 := congrArg Dataset.ImagePositionPatient h.1
        simpa [stripSeries] using h2
      simp only [List.map]
      rw [hp, positions_congr ds es h.2 n]
  | [], _ :: _, h, _ => by simp [agreeExceptSeries] at h
  | _ :: _, [], h, _ => by simp [agreeExceptSeries] at h

/-- C9: the grid validator treats two slice lists that differ only in their
series identifiers identically — in particular a series-identifier change can
never, by itself, produce a `GeometryMismatch` — because
`_slice_attribute_equal` returns immediately for `SeriesInstanceUID`. -/
theorem claim_C9 (l1 l2 : List Dataset) (h : agreeExceptSeries l1 l2 = true) :
    _validate_slices_form_uniform_grid l1 = _validate_slices_form_uniform_grid l2
    ∧ (∀ l : List Dataset, _slice_attribute_equal l "SeriesInstanceUID" = .ok ()) := by
  refine ⟨?_, fun l => rfl⟩
  unfold _validate_slices_form_uniform_grid
  rw [validateProps_congr l1 l2 h invariant_properties]
  cases l1 with
  | nil =>
      cases l2 with
      | nil => rfl
      | cons e es => simp [agreeExceptSeries] at h
  | cons d ds =>
      cases l2 with
      | nil => simp [agreeExceptSeries] at h
      | cons e es =>
          have h' := h
          simp only [agreeExceptSeries, Bool.and_eq_true, decide_eq_true_eq] at h'
          have hO : d.ImageOrientationPatient = e.ImageOrientationPatient := by
            have h2 := congrArg Dataset.ImageOrientationPatient h'.1
            simpa [stripSeries] using h2
          have hpos : _slice_positions (d :: ds) = _slice_positions (e :: es) := by
            show Except.ok ((d :: ds).map fun x =>
                dot3 (sliceCosine d.ImageOrientationPatient) (vec3 x.ImagePositionPatient)) =
              Except.ok ((e :: es).map fun x =>
                dot3 (sliceCosine e.ImageOrientationPatient) (vec3 x.ImagePositionPatient))
            rw [hO, positions_congr (d :: ds) (e :: es) h
              (sliceCosine e.ImageOrientationPatient)]
          congr 1
          funext u
          show (do
              let w1 ← _validate_image_orientation d.ImageOrientationPatient
              let ps ← _slice_positions (d :: ds)
              let w2 ← _check_for_missing_slices ps
              (.ok (w1 ++ w2) : Except Err (List Warning))) = (do
              let w1 ← _validate_image_orientation e.ImageOrientationPatient
              let ps ← _slice_positions (e :: es)
              let w2 ← _check_for_missing_slices ps
              (.ok (w1 ++ w2) : Except Err (List Warning)))
          rw [hO, hpos]

/-- Variant of `baseDS` with a different series identifier. -/
def dsSerA : Dataset := { baseDS with SeriesInstanceUID := .scalar (.str "9.9.9.9") }

/-- Variant of `atZ 1` with a different series identifier. -/
def dsSerB : Dataset := { atZ 1 with SeriesInstanceUID := .scalar (.str "8.8") }

/-- C9 witness: swapping both slices' series identifiers leaves the validator's
result unchanged. -/
theorem claim_C9_witness :
    _validate_slices_form_uniform_grid [baseDS, atZ 1] =
      _validate_slices_form_uniform_grid [dsSerA, dsSerB] :=
  (claim_C9 [baseDS, atZ 1] [dsSerA, dsSerB] (by with_unfolding_all rfl)).1

/-- Slice at height `1` with pixel spacing `1.0008`. -/
def dsPB : Dataset := { atZ 1 with PixelSpacing := [1 + 8/10000, 1] }

/-- Slice at height `2` with pixel spacing `1.0016`. -/
def dsPC : Dataset := { atZ 2 with PixelSpacing := [1 + 16/10000, 1] }

/-- C4 counterexample: the list `[dsPB, baseDS, dsPC]` is valid (its pixel
spacings pairwise differ from the first slice's by `0.0008`, robustly inside
the `0.001` tolerance even in IEEE float arithmetic), but the permutation
`[baseDS, dsPB, dsPC]` makes the first-versus-rest tolerance check compare
`baseDS` with `dsPC`, whose spacings differ by `0.0016` — robustly outside
the tolerance — so the pipeline raises `GeometryMismatch` instead of
returning the identical volume and transform. -/
theorem claim_C4_counterexample :
    ([baseDS, dsPB, dsPC] : List Dataset).Perm [dsPB, baseDS, dsPC]
    ∧ combine_slices [dsPB, baseDS, dsPC] =
        .ok ([], ⟨"int16", [[[7]], [[7]], [[7]]]⟩,
          [[1, 0, 0, 0], [0, 1, 0, 0], [0, 0, 1, 0], [0, 0, 0, 1]])
    ∧ combine_slices [baseDS, dsPB, dsPC] =
        .error (.geometryMismatch "PixelSpacing"
          (.list [.float (626/625), .float 1]) (.list [.float 1, .float 1]))
    ∧ combine_slices [baseDS, dsPB, dsPC] ≠ combine_slices [dsPB, baseDS, dsPC] := by
  have hok : combine_slices [dsPB, baseDS, dsPC] =
      .ok ([], ⟨"int16", [[[7]], [[7]], [[7]]]⟩,
        [[1, 0, 0, 0], [0, 1, 0, 0], [0, 0, 1, 0], [0, 0, 0, 1]]) := by
    with_unfolding_all rfl
  have herr : combine_slices [baseDS, dsPB, dsPC] =
      .error (.geometryMismatch "PixelSpacing"
        (.list [.float (626/625), .float 1]) (.list [.float 1, .float 1])) := by
    with_unfolding_all rfl
  refine ⟨List.Perm.swap dsPB baseDS [dsPC], hok, herr, ?_⟩
  rw [hok, herr]
  exact fun hc => Except.noConfusion hc

/-- The slices' agreement on every attribute the validator compares (series
identifier excluded, since it is skipped) plus the native pixel dtype. -/
def coreAgrees (d0 d : Dataset) : Bool :=
  decide (d.Modality = d0.Modality) && decide (d.SOPClassUID = d0.SOPClassUID) &&
  decide (d.Rows = d0.Rows) && decide (d.Columns = d0.Columns) &&
  decide (d.PixelRepresentation = d0.PixelRepresentation) &&
  decide (d.BitsAllocated = d0.BitsAllocated) &&
  decide (d.BitsStored = d0.BitsStored) && decide (d.HighBit = d0.HighBit) &&
  decide (d.ImageOrientationPatient = d0.ImageOrientationPatient) &&
  decide (d.PixelSpacing = d0.PixelSpacing) && decide (d.pixelDtype = d0.pixelDtype)

/-- Every slice of the list shares the first slice's compared attributes. -/
def uniformCore : List Dataset → Bool
  | [] => true
  | d0 :: tl => (d0 :: tl).all (coreAgrees d0)

theorem coreAgrees_fields {d0 d : Dataset} (h : coreAgrees d0 d = true) :
    d.Modality = d0.Modality ∧ d.SOPClassUID = d0.SOPClassUID ∧ d.Rows = d0.Rows ∧
    d.Columns = d0.Columns ∧ d.PixelRepresentation = d0.PixelRepresentation ∧
    d.BitsAllocated = d0.BitsAllocated ∧ d.BitsStored = d0.BitsStored ∧
    d.HighBit = d0.HighBit ∧ d.ImageOrientationPatient = d0.ImageOrientationPatient ∧
    d.PixelSpacing = d0.PixelSpacing ∧ d.pixelDtype = d0.pixelDtype := by
  simp only [coreAgrees, Bool.and_eq_true, decide_eq_true_eq] at h
  tauto

/-- Core-agreeing slices look identical to `getattr` away from the series
identifier. -/
theorem getattr_core {d0 d : Dataset} (h : coreAgrees d0 d = true) (name : String)
    (hn : name ≠ "SeriesInstanceUID") : pyGetattr d name = pyGetattr d0 name := by
  obtain ⟨hM, hS, hR, hC, hPR, hBA, hBS, hHB, hO, hP, _⟩ := coreAgrees_fields h
  unfold pyGetattr
  rw [hM, hS, hR, hC, hO, hP, hPR, hBA, hBS, hHB]
  rw [if_neg hn, if_neg hn]

/-- When every remaining slice carries the same attribute value as the first,
the comparison loop's result depends only on whether the tail is empty. -/
theorem saeLoop_const (name : String) (v : PyVal) :
    ∀ tl : List Dataset, (∀ d ∈ tl, pyGetattr d name = v) →
      saeLoop name v tl =
        match tl with
        | [] => .ok ()
        | _ :: _ =>
            match _lsts_roughly_equal v v with
            | .ok true => .ok ()
            | .ok false => .error (.geometryMismatch name v v)
            | .error e => .error e
  | [], _ => rfl
  | d :: rest, hall => by
      have hd := hall d (List.mem_cons_self d rest)
      have ih := saeLoop_const name v rest fun e he => hall e (List.mem_cons_of_mem d he)
      simp only [saeLoop, hd]
      cases hre : _lsts_roughly_equal v v with
      | error e => simp [hre]
      | ok b =>
          cases b
          · simp [hre]
          · rw [ih]
            cases rest <;> simp [hre]

/-- The attribute check result is the same for two lists of equal length whose
members all carry the first slice's value. -/
theorem sae_uniform (name : String) (hn : name ≠ "SeriesInstanceUID")
    (d0 : Dataset) (l1 l2 : List Dataset)
    (h1 : ∀ d ∈ l1, pyGetattr d name = pyGetattr d0 name)
    (h2 : ∀ d ∈ l2, pyGetattr d name = pyGetattr d0 name)
    (hlen : l1.length = l2.length) :
    _slice_attribute_equal l1 name = _slice_attribute_equal l2 name := by
  unfold _slice_attribute_equal
  rw [if_neg hn, if_neg hn]
  cases l1 with
  | nil =>
      cases l2 with
      | nil => rfl
      | cons b t2 => simp at hlen
  | cons a t1 =>
      cases l2 with
      | nil => simp at hlen
      | cons b t2 =>
          show saeLoop name (pyGetattr a name) t1 = saeLoop name (pyGetattr b name) t2
          rw [h1 a (List.mem_cons_self a t1), h2 b (List.mem_cons_self b t2)]
          rw [saeLoop_const name _ t1 fun d hd => h1 d (List.mem_cons_of_mem a hd)]
          rw [saeLoop_const name _ t2 fun d hd => h2 d (List.mem_cons_of_mem b hd)]
          cases t1 with
          | nil =>
              cases t2 with
              | nil => rfl
              | cons => simp at hlen
          | cons =>
              cases t2 with
              | nil => simp at hlen
              | cons => rfl

/-- The whole property loop is insensitive to permuting uniform lists. -/
theorem validateProps_uniform (d0 : Dataset) (l1 l2 : List Dataset)
    (h1 : ∀ name, name ≠ "SeriesInstanceUID" →
      ∀ d ∈ l1, pyGetattr d name = pyGetattr d0 name)
    (h2 : ∀ name, name ≠ "SeriesInstanceUID" →
      ∀ d ∈ l2, pyGetattr d name = pyGetattr d0 name)
    (hlen : l1.length = l2.length) :
    ∀ names : List String, validateProps l1 names = validateProps l2 names
  | [] => rfl
  | n :: rest => by
      simp only [validateProps]
      have hsae : _slice_attribute_equal l1 n = _slice_attribute_equal l2 n := by
        by_cases hn : n = "SeriesInstanceUID"
        · subst hn
          simp [_slice_attribute_equal]
        · exact sae_uniform n hn d0 l1 l2 (h1 n hn) (h2 n hn) hlen
      rw [hsae, validateProps_uniform d0 l1 l2 h1 h2 hlen rest]

/-- Key-sorting two permutations of the same multiset with pairwise distinct
keys gives the same list. -/
theorem insertionSortKey_eq_of_perm (f : Dataset → ℚ) (l1 l2 : List Dataset)
    (hp : l2.Perm l1) (hnd : (l1.map f).Nodup) :
    List.insertionSort (fun a b => f a ≤ f b) l2 =
      List.insertionSort (fun a b => f a ≤ f b) l1 := by
  haveI : IsTotal Dataset (fun a b => f a ≤ f b) := ⟨fun a b => le_total _ _⟩
  haveI : IsTrans Dataset (fun a b => f a ≤ f b) :=
    ⟨fun _ _ _ hab hbc => le_trans hab hbc⟩
  haveI : IsAntisymm Dataset (fun a b => f a < f b) :=
    ⟨fun a b h1 h2 => absurd (lt_trans h1 h2) (lt_irrefl _)⟩
  have hperm : (List.insertionSort (fun a b => f a ≤ f b) l2).Perm
      (List.insertionSort (fun a b => f a ≤ f b) l1) :=
    (List.perm_insertionSort _ l2).trans (hp.trans (List.perm_insertionSort _ l1).symm)
  have hstrict : ∀ l : List Dataset, l.Sorted (fun a b => f a ≤ f b) →
      (l.map f).Nodup → l.Sorted (fun a b => f a < f b) := by
    intro l hs hndl
    have hne : l.Pairwise fun a b => f a ≠ f b := List.pairwise_map.mp hndl
    exact (hs.and hne).imp fun h => lt_of_le_of_ne h.1 h.2
  have hnd1 : ((List.insertionSort (fun a b => f a ≤ f b) l1).map f).Nodup :=
    (((List.perm_insertionSort _ l1).map f).nodup_iff).mpr hnd
  have hnd2 : ((List.insertionSort (fun a b => f a ≤ f b) l2).map f).Nodup :=
    ((hperm.map f).nodup_iff).mpr hnd1
  exact List.eq_of_perm_of_sorted hperm
    (hstrict _ (List.sorted_insertionSort _ l2) hnd2)
    (hstrict _ (List.sorted_insertionSort _ l1) hnd1)

/-- C4 (amended): for a slice list whose slices agree exactly on every
attribute the validator compares (and on the native pixel dtype), the entry
operation returns the identical result — warnings, volume, and transform —
for every permutation of the list.  (Without exact agreement the claim fails:
the first-versus-rest tolerance comparisons are order-dependent, see the
counterexample.) -/
theorem claim_C4 (l1 l2 : List Dataset) (hp : l2.Perm l1)
    (hu : uniformCore l1 = true) :
    combine_slices l2 = combine_slices l1 := by
  cases l1 with
  | nil =>
      rw [hp.eq_nil]
  | cons d0 t1 =>
      cases l2 with
      | nil => exact absurd hp.length_eq (by simp)
      | cons e0 t2 =>
          have hall1 : ∀ d ∈ d0 :: t1, coreAgrees d0 d = true := by
            intro d hd
            exact List.all_eq_true.mp hu d hd
          have hall2 : ∀ d ∈ e0 :: t2, coreAgrees d0 d = true := fun d hd =>
            hall1 d (hp.subset hd)
          have he0 := hall2 e0 (List.mem_cons_self e0 t2)
          have hOr : e0.ImageOrientationPatient = d0.ImageOrientationPatient :=
            (coreAgrees_fields he0).2.2.2.2.2.2.2.2.1
          have hdt : e0.pixelDtype = d0.pixelDtype :=
            (coreAgrees_fields he0).2.2.2.2.2.2.2.2.2.2
          have hlen : (e0 :: t2).length = (d0 :: t1).length := hp.length_eq
          -- positions
          have hpos1 : _slice_positions (d0 :: t1) = .ok ((d0 :: t1).map fun x =>
              dot3 (sliceCosine d0.ImageOrientationPatient)
                (vec3 x.ImagePositionPatient)) := rfl
          have hpos2 : _slice_positions (e0 :: t2) = .ok ((e0 :: t2).map fun x =>
              dot3 (sliceCosine d0.ImageOrientationPatient)
                (vec3 x.ImagePositionPatient)) := by
            show Except.ok ((e0 :: t2).map fun x =>
                dot3 (sliceCosine e0.ImageOrientationPatient)
                  (vec3 x.ImagePositionPatient)) = _
            rw [hOr]
          have hmapperm : (((e0 :: t2).map fun x =>
              dot3 (sliceCosine d0.ImageOrientationPatient)
                (vec3 x.ImagePositionPatient)).Perm
              ((d0 :: t1).map fun x =>
                dot3 (sliceCosine d0.ImageOrientationPatient)
                  (vec3 x.ImagePositionPatient))) := hp.map _
          -- validation
          have hval : _validate_slices_form_uniform_grid (e0 :: t2) =
              _validate_slices_form_uniform_grid (d0 :: t1) := by
            unfold _validate_slices_form_uniform_grid
            rw [validateProps_uniform d0 (e0 :: t2) (d0 :: t1)
              (fun name hn d hd => getattr_core (hall2 d hd) name hn)
              (fun name hn d hd => getattr_core (hall1 d hd) name hn)
              hlen invariant_properties]
            congr 1
            funext u
            show (do
                let w1 ← _validate_image_orientation e0.ImageOrientationPatient
                let ps ← _slice_positions (e0 :: t2)
                let w2 ← _check_for_missing_slices ps
                (.ok (w1 ++ w2) : Except Err (List Warning))) = (do
                let w1 ← _validate_image_orientation d0.ImageOrientationPatient
                let ps ← _slice_positions (d0 :: t1)
                let w2 ← _check_for_missing_slices ps
                (.ok (w1 ++ w2) : Except Err (List Warning)))
            rw [hOr, hpos1, hpos2]
            simp only [okBind]
            unfold _check_for_missing_slices
            rw [sortQ_eq_of_perm hmapperm]
          -- sorting
          have hsrt : _sort_by_slice_spacing (e0 :: t2) =
              _sort_by_slice_spacing (d0 :: t1) := by
            simp only [_sort_by_slice_spacing]
            rw [hOr]
            have hndiff := (hp.map (keyOf (sliceCosine d0.ImageOrientationPatient))).nodup_iff
            by_cases hnd : ((d0 :: t1).map
                (keyOf (sliceCosine d0.ImageOrientationPatient))).Nodup
            · rw [if_pos hnd, if_pos (hndiff.mpr hnd)]
              rw [insertionSortKey_eq_of_perm _ _ _ hp hnd]
            · rw [if_neg hnd, if_neg fun hc => hnd (hndiff.mp hc)]
          -- spacing
          have hsp : _slice_spacing (e0 :: t2) = _slice_spacing (d0 :: t1) := by
            unfold _slice_spacing
            rw [hlen]
            by_cases hB : 1 < (d0 :: t1).length
            · rw [if_pos hB, if_pos hB, hpos1, hpos2]
              simp only [okBind]
              rw [sortQ_eq_of_perm hmapperm]
            · rw [if_neg hB, if_neg hB]
          -- merge
          have hmrg : _merge_slice_pixel_arrays (e0 :: t2) =
              _merge_slice_pixel_arrays (d0 :: t1) := by
            show (do
                let sorted ← _sort_by_slice_spacing (e0 :: t2)
                if sorted.any _requires_rescaling then
                  (.ok ⟨"float32", sorted.map scaleSlice⟩ : Except Err Volume)
                else .ok ⟨e0.pixelDtype, sorted.map fun (d : Dataset) => pyT d.pixel_array⟩) = (do
                let sorted ← _sort_by_slice_spacing (d0 :: t1)
                if sorted.any _requires_rescaling then
                  (.ok ⟨"float32", sorted.map scaleSlice⟩ : Except Err Volume)
                else .ok ⟨d0.pixelDtype, sorted.map fun (d : Dataset) => pyT d.pixel_array⟩)
            rw [hsrt, hdt]
          -- transform
          have htr : _ijk_to_patient_xyz_transform_matrix (e0 :: t2) =
              _ijk_to_patient_xyz_transform_matrix (d0 :: t1) := by
            unfold _ijk_to_patient_xyz_transform_matrix
            rw [hsrt, hsp]
          unfold combine_slices
          rw [hlen, hval, hmrg, htr]

/-- C4 witness: swapping two attribute-identical slices leaves the pipeline
output unchanged. -/
theorem claim_C4_witness :
    combine_slices [atZ 1, baseDS] = combine_slices [baseDS, atZ 1] :=
  claim_C4 [baseDS, atZ 1] [atZ 1, baseDS] (List.Perm.swap baseDS (atZ 1) [])
    (by with_unfolding_all rfl)
